import Mathlib

/-!
Shallow embedding of the version/utility layer (`src/common/Common.ts`) and the
Android device control layer (`src/common/device/AndroidDevice.ts`) of
lwc-dev-mobile-core, together with theorems settling the spec claims about them.

Strings are modelled by Lean `String`; the character-level helpers below mirror
the ECMAScript string primitives the source uses (trim, split, toLowerCase)
restricted to the ASCII range actually exercised by the code and its inputs.
External collaborators (the adb command channel, AndroidUtils, CryptoUtils,
os.tmpdir) are modelled as oracle parameters, as the spec itself treats them
("CommandExecutionChannel" is an external collaborator, consumed not
implemented).
-/

/-- JS whitespace (ASCII portion) as removed by `String.prototype.trim`. -/
def isWSCh (c : Char) : Bool :=
  c == ' ' || c == '\t' || c == '\n' || c == '\r' || c == '\x0b' || c == '\x0c'

/-- `trim`: drop whitespace from both ends of a character list. -/
def trimList (cs : List Char) : List Char :=
  ((cs.dropWhile isWSCh).reverse.dropWhile isWSCh).reverse

/-- Rebuild a `String` from its characters. -/
def strOfList (cs : List Char) : String := String.mk cs

/-- ASCII lower-casing of one character, as `toLowerCase` acts on ASCII. -/
def lowerCh (c : Char) : Char :=
  if 'A' ≤ c && c ≤ 'Z' then Char.ofNat (c.toNat + 32) else c

/-- ASCII lower-casing of a string. -/
def lowerStr (s : String) : String := strOfList (s.data.map lowerCh)

/-- Decimal digit test. -/
def isDigitCh (c : Char) : Bool := '0' ≤ c && c ≤ '9'

/-- Value of a decimal digit string (`Number.parseInt(_, 10)` on digit input). -/
def digitsToNat (cs : List Char) : Nat :=
  cs.foldl (fun acc c => acc * 10 + (c.toNat - '0'.toNat)) 0

/-- The numeral alternation `0|[1-9]\d*` of the version regex: a bare `0`, or a
digit string with no leading zero.  Returns its numeric value when it matches
the whole list. -/
def canonNum? (cs : List Char) : Option Nat :=
  match cs with
  | [] => none
  | ['0'] => some 0
  | c :: _ => if c != '0' && cs.all isDigitCh then some (digitsToNat cs) else none

/-- The separator class `[-.]` of the version regex. -/
def isSepCh (c : Char) : Bool := c == '-' || c == '.'

/-- Split a list at the first character satisfying `p`:
`some (before, sep, after)`, or `none` when no character satisfies `p`. -/
def splitAtFirst (p : Char → Bool) : List Char → Option (List Char × Char × List Char)
  | [] => none
  | c :: rest =>
    if p c then some ([], c, rest)
    else
      match splitAtFirst p rest with
      | some (a, s, b) => some (c :: a, s, b)
      | none => none

/-- `Version` — immutable major/minor/patch triple (`Common.ts`). -/
structure Version where
  major : Nat
  minor : Nat
  patch : Nat
deriving DecidableEq

/-- `Version.from` (`Common.ts` lines 132-154): trims the input and matches it
against the ECMAScript regex

  `^(?<Major>0|[1-9]\d*)((?<Separator>[-.])(?<Minor>0|[1-9]\d*))?(\k<Separator>(?<Patch>0|[1-9]\d*))?$`

(`from` is a Lean keyword, hence the name `fromStr`).  The embedding implements
the regex's ECMAScript match semantics directly:
* no separator occurs: the whole input is one numeral (Major; Minor and Patch
  group default to 0), or — because per ECMA-262 a backreference to the
  unmatched `Separator` group matches the empty string — a Major `0` followed
  immediately by a numeral captured as Patch (Minor absent);
* one separator: Major, separator, Minor;
* two separators: Major, Minor, Patch, and the second separator must equal the
  first (`\k<Separator>`); any further separator makes the tail fail the
  numeral test, as in the regex.
Greedy matching makes these cases exhaustive: a nonzero-led digit run is always
consumed whole by `0|[1-9]\d*`, so backtracking inside the regex never produces
an acceptance outside of these shapes (checked by hand against ECMA-262
backtracking semantics). -/
def Version.fromStr (input : String) : Option Version :=
  match splitAtFirst isSepCh (trimList input.data) with
  | none =>
    match canonNum? (trimList input.data) with
    | some n => some ⟨n, 0, 0⟩
    | none =>
      match trimList input.data with
      | '0' :: rest =>
        match canonNum? rest with
        | some p => some ⟨0, 0, p⟩
        | none => none
      | _ => none
  | some (a, s, b) =>
    match splitAtFirst isSepCh b with
    | none =>
      match canonNum? a, canonNum? b with
      | some ma, some mi => some ⟨ma, mi, 0⟩
      | _, _ => none
    | some (c, s2, d) =>
      if s2 == s then
        match canonNum? a, canonNum? c, canonNum? d with
        | some ma, some mi, some pa => some ⟨ma, mi, pa⟩
        | _, _, _ => none
      else none

/-- `Version.toString` (`Common.ts` lines 232-234): the `x.y.z` rendering. -/
def Version.toString (v : Version) : String :=
  Nat.repr v.major ++ "." ++ Nat.repr v.minor ++ "." ++ Nat.repr v.patch

/-- A `Version | string` operand of `Version.compare`. -/
inductive VersionOrString where
  | ver (v : Version)
  | str (s : String)

/-- `typeof v === 'string' ? Version.from(v) : v` (`Common.ts` lines 189-190). -/
def resolveOperand : VersionOrString → Option Version
  | .ver v => some v
  | .str s => Version.fromStr s

/-- JS `toString()` of a compare operand: a string is itself, a Version renders
as `x.y.z`. -/
def VersionOrString.asStr : VersionOrString → String
  | .ver v => v.toString
  | .str s => s

/-- `localeCompare(..., sensitivity: 'accent') === 0`: case-insensitive
equality of the two strings (modelled on the ASCII alphabet). -/
def ciEqual (a b : String) : Bool := lowerStr a == lowerStr b

/-- The error thrown by `Version.compare` for two distinct codenames
(message key `error:version:codename:comparing`). -/
inductive VersionCompareError where
  | codenameComparing
deriving DecidableEq

/-- `Version.compare` (`Common.ts` lines 188-225). -/
def Version.compare (v1 v2 : VersionOrString) : Except VersionCompareError Int :=
  match resolveOperand v1, resolveOperand v2 with
  | none, none =>
    -- both are strings that represent codename versions
    if ciEqual v1.asStr v2.asStr then Except.ok 0
    else Except.error VersionCompareError.codenameComparing
  | none, some _ => Except.ok 1
  | some _, none => Except.ok (-1)
  | some version1, some version2 =>
    -- both are semver so convert to number and compare
    if version1.major * 100 + version1.minor * 10 + version1.patch =
        version2.major * 100 + version2.minor * 10 + version2.patch then Except.ok 0
    else if version1.major * 100 + version1.minor * 10 + version1.patch <
        version2.major * 100 + version2.minor * 10 + version2.patch then Except.ok (-1)
    else Except.ok 1

/-- Split characters on the line separator regex `/\r?\n/`
(`Common.ts` line 25): `"\r\n"` or a bare `"\n"` ends a line; a `"\r"` not
followed by `"\n"` is ordinary content. -/
def splitREN : List Char → List (List Char)
  | [] => [[]]
  | '\r' :: '\n' :: rest => [] :: splitREN rest
  | '\n' :: rest => [] :: splitREN rest
  | c :: rest =>
    match splitREN rest with
    | h :: t => (c :: h) :: t
    | [] => [[c]]

/-- `CaseInsensitiveStringMap` (`Common.ts` lines 13-60): a JS `Map` whose keys
are stored lower-cased, modelled as its entry list in insertion order. -/
structure CaseInsensitiveStringMap where
  entries : List (String × String)
deriving DecidableEq

/-- `set`: store under the lower-cased key; an existing key keeps its position
and gets the new value (JS `Map.set`), a new key is appended. -/
def CaseInsensitiveStringMap.set (m : CaseInsensitiveStringMap) (key value : String) :
    CaseInsensitiveStringMap :=
  if m.entries.any (fun p => p.1 == lowerStr key) then
    ⟨m.entries.map (fun p => if p.1 == lowerStr key then (p.1, value) else p)⟩
  else ⟨m.entries ++ [(lowerStr key, value)]⟩

/-- `get`: look up by the lower-cased key. -/
def CaseInsensitiveStringMap.get (m : CaseInsensitiveStringMap) (key : String) :
    Option String :=
  (m.entries.find? (fun p => p.1 == lowerStr key)).map (fun p => p.2)

/-- `CaseInsensitiveStringMap.fromString` (`Common.ts` lines 23-39): split the
input into lines, and for each line holding a `:` or `=`, store
(part before the first one, trimmed) ↦ (part after it, trimmed); lines with
neither separator are skipped. -/
def CaseInsensitiveStringMap.fromString (input : String) : CaseInsensitiveStringMap :=
  (splitREN input.data).foldl
    (fun m line =>
      match line.findIdx? (fun c => c == ':' || c == '=') with
      | some i =>
        m.set (strOfList (trimList (line.take i))) (strOfList (trimList (line.drop (i + 1))))
      | none => m)
    ⟨[]⟩

/-- Does `hay` start with `needle`? (helper for substring containment). -/
def leadsWith : List Char → List Char → Bool
  | [], _ => true
  | _ :: _, [] => false
  | a :: as, b :: bs => a == b && leadsWith as bs

/-- JS `String.prototype.includes`: `needle` occurs contiguously in `hay`. -/
def containsSub (needle : List Char) : List Char → Bool
  | [] => leadsWith needle []
  | c :: t => leadsWith needle (c :: t) || containsSub needle t

/-!
Device control layer (`src/common/device/AndroidDevice.ts`).

`AndroidUtils`, `CryptoUtils` and the adb channel live outside `src/`; the spec
declares the command channel an external collaborator, so they are modelled as
oracles.  An oracle maps each request to the outcome the external tool would
produce (`Except.error` models a thrown/rejected call).  The embedding of each
device method mirrors the method body's control flow over these oracles and
additionally returns the list of externally visible actions it performed, so
that ordering and "no process is spawned" properties can be stated.
-/

/-- `SSLCertificateData` (from `CryptoUtils`): DER bytes (opaque here) plus an
optionally cached PEM form. -/
structure SSLCertificateData where
  derCertificate : String
  pemCertificate : Option String
deriving DecidableEq

/-- Oracle for `CryptoUtils.getSubjectHashOld` and `CryptoUtils.derToPem`. -/
structure CryptoOracle where
  getSubjectHashOld : SSLCertificateData → String
  derToPem : String → String

/-- Oracles for the external tools a device talks to: `os.tmpdir()`, the host
filesystem write `fs.writeFileSync` (path, content ↦ outcome; it throws on
failure, modelled as `Except.error`), the adb command channel bound to this
device's session port (`AndroidUtils.executeAdbCommand`),
`AndroidUtils.mountAsRootWritableSystem`, `AndroidUtils.startEmulator`
(avd id, writable, wait ↦ port) and `AndroidUtils.rebootEmulator`
(port, wait). -/
structure DeviceEnv where
  tmpdir : String
  writeFileSync : String → String → Except String Unit
  adb : String → Except String String
  mountAsRootWritableSystem : Except String Unit
  startEmulator : String → Bool → Bool → Except String Int
  rebootEmulator : Int → Bool → Except String Unit

/-- `AndroidDevice` fields (`AndroidDevice.ts` lines 26-53); `port = -1` is
the not-booted sentinel. -/
structure AndroidDevice where
  id : String
  name : String
  deviceType : String
  osType : String
  osVersion : VersionOrString
  isPlayStore : Bool
  port : Int

/-- The literal adb command listing the device trust directory
(`AndroidDevice.ts` line 163). -/
def lsCacertsCmd : String := "shell \"ls /data/misc/user/0/cacerts-added\""

/-- The on-device trust-store file name for a certificate:
`getSubjectHashOld(certData) + ".0"`. -/
def certFileName (crypto : CryptoOracle) (certData : SSLCertificateData) : String :=
  crypto.getSubjectHashOld certData ++ ".0"

/-- `AndroidDevice.isCertInstalled` (`AndroidDevice.ts` lines 150-175):
`adb root`, then list the trust directory and test whether the listing
contains the hash-named file; any error from either adb call is caught
(logged) and yields `false`.  Total (`Bool`-valued): the method never raises. -/
def AndroidDevice.isCertInstalled (crypto : CryptoOracle) (env : DeviceEnv)
    (_d : AndroidDevice) (certData : SSLCertificateData) : Bool :=
  match env.adb "root" with
  | .error _ => false
  | .ok _ =>
    match env.adb lsCacertsCmd with
    | .error _ => false
    | .ok result => containsSub (certFileName crypto certData).data result.data

/-- The PEM content written by `installCert`:
`certData.pemCertificate ?? CryptoUtils.derToPem(certData.derCertificate)`. -/
def pemContentOf (crypto : CryptoOracle) (certData : SSLCertificateData) : String :=
  match certData.pemCertificate with
  | some pem => pem
  | none => crypto.derToPem certData.derCertificate

/-- The adb push command of `installCert` (`AndroidDevice.ts` lines 192-196). -/
def pushCertCmd (certFilePath fileName : String) : String :=
  "push " ++ certFilePath ++ " /data/misc/user/0/cacerts-added/" ++ fileName

/-- The adb chmod command of `installCert` (`AndroidDevice.ts` lines 197-201). -/
def chmodCertCmd (fileName : String) : String :=
  "shell \"su 0 chmod 644 /data/misc/user/0/cacerts-added/" ++ fileName ++ "\""

/-- Externally visible steps of `installCert`, in order. -/
inductive InstallStep where
  | writeHostFile (filePath content : String)
  | mountWritable (avdId : String)
  | adbCommand (cmd : String)
deriving DecidableEq

/-- `AndroidDevice.installCert` (`AndroidDevice.ts` lines 182-202):
`fs.writeFileSync` the PEM to `tmpdir/{hash}.0` on the host, remount the
system as root-writable (`mountAsRootWritableSystem`), `adb push` the file
into the trust directory, `adb shell su 0 chmod 644` it.  There is no catch
block: the first failing step's error — including a thrown host-file write —
is the method's outcome (`Except.error`), later steps do not run.
Returns (steps attempted in order, outcome). -/
def AndroidDevice.installCert (crypto : CryptoOracle) (env : DeviceEnv)
    (d : AndroidDevice) (certData : SSLCertificateData) :
    List InstallStep × Except String Unit :=
  let fileName := certFileName crypto certData
  let certFilePath := env.tmpdir ++ "/" ++ fileName
  let write := InstallStep.writeHostFile certFilePath (pemContentOf crypto certData)
  match env.writeFileSync certFilePath (pemContentOf crypto certData) with
  | .error e => ([write], .error e)
  | .ok _ =>
    match env.mountAsRootWritableSystem with
    | .error e => ([write, .mountWritable d.id], .error e)
    | .ok _ =>
      match env.adb (pushCertCmd certFilePath fileName) with
      | .error e =>
        ([write, .mountWritable d.id, .adbCommand (pushCertCmd certFilePath fileName)], .error e)
      | .ok _ =>
        match env.adb (chmodCertCmd fileName) with
        | .error e =>
          ([write, .mountWritable d.id, .adbCommand (pushCertCmd certFilePath fileName),
            .adbCommand (chmodCertCmd fileName)], .error e)
        | .ok _ =>
          ([write, .mountWritable d.id, .adbCommand (pushCertCmd certFilePath fileName),
            .adbCommand (chmodCertCmd fileName)], .ok ())

/-- The `SfError` message raised by `boot` for Play Store images
(`AndroidDevice.ts` line 74). -/
def playStoreBootError : String := "Play Store devices cannot be booted with writable system."

/-- Externally visible emulator lifecycle actions. -/
inductive EmuAction where
  | startEmulator (avdId : String) (writable wait : Bool)
  | rebootEmulator (port : Int) (wait : Bool)
deriving DecidableEq

/-- `AndroidDevice.boot` (`AndroidDevice.ts` lines 72-78): a Play Store device
with `systemWritable` requested throws before `startEmulator` is called;
otherwise `startEmulator` runs and on success its port is stored on the
device.  Returns (device after the call, actions performed, outcome). -/
def AndroidDevice.boot (env : DeviceEnv) (d : AndroidDevice)
    (waitForBoot systemWritable : Bool) :
    AndroidDevice × List EmuAction × Except String Unit :=
  if systemWritable && d.isPlayStore then
    (d, [], .error playStoreBootError)
  else
    match env.startEmulator d.id systemWritable waitForBoot with
    | .ok p => ({ d with port := p }, [.startEmulator d.id systemWritable waitForBoot], .ok ())
    | .error e => (d, [.startEmulator d.id systemWritable waitForBoot], .error e)

/-- `AndroidDevice.reboot` (`AndroidDevice.ts` lines 85-92): a device whose
port is the `-1` sentinel is booted instead (with the default
`systemWritable = false`); otherwise `rebootEmulator` runs on its port. -/
def AndroidDevice.reboot (env : DeviceEnv) (d : AndroidDevice) (waitForBoot : Bool) :
    AndroidDevice × List EmuAction × Except String Unit :=
  if d.port == -1 then
    AndroidDevice.boot env d waitForBoot false
  else
    match env.rebootEmulator d.port waitForBoot with
    | .ok _ => (d, [.rebootEmulator d.port waitForBoot], .ok ())
    | .error e => (d, [.rebootEmulator d.port waitForBoot], .error e)

/-- `target.split('/')[0]`: the package id before the first `/`. -/
def pkgIdOf (target : String) : String :=
  strOfList (target.data.takeWhile (fun c => c != '/'))

/-- The adb query issued by `hasApp` (`AndroidDevice.ts` lines 121-125). -/
def hasAppCmd (pkgId : String) : String :=
  "shell pm list packages | grep \"" ++ pkgId ++ "\""

/-- `AndroidDevice.hasApp` (`AndroidDevice.ts` lines 116-131): query the
package list for the package id; a thrown adb error is swallowed leaving the
empty result; the answer is whether the (trimmed) result is non-empty.
Total (`Bool`-valued): the method never raises. -/
def AndroidDevice.hasApp (env : DeviceEnv) (_d : AndroidDevice) (target : String) : Bool :=
  let result :=
    match env.adb (hasAppCmd (pkgIdOf target)) with
    | .ok r => r
    | .error _ => ""
  strOfList (trimList result.data) != ""

/-- Sample crypto oracle for witnesses. -/
def sampleCrypto : CryptoOracle :=
  ⟨fun _ => "abcd1234", fun der => "PEM:" ++ der⟩

/-- Sample all-succeeding device environment for witnesses. -/
def sampleEnvAllOk : DeviceEnv :=
  ⟨"/tmp", fun _ _ => .ok (), fun _ => .ok "", .ok (), fun _ _ _ => .ok 5554, fun _ _ => .ok ()⟩

/-- Sample environment whose host file write throws (disk full), everything
else succeeding. -/
def sampleEnvWriteFails : DeviceEnv :=
  ⟨"/tmp", fun _ _ => .error "ENOSPC", fun _ => .ok "", .ok (), fun _ _ _ => .ok 5554,
   fun _ _ => .ok ()⟩

/-- Sample certificate with no cached PEM. -/
def sampleCert : SSLCertificateData := ⟨"DER-BYTES", none⟩

/-- Sample certificate with a cached PEM. -/
def sampleCertPem : SSLCertificateData := ⟨"DER-BYTES", some "CACHED-PEM"⟩

/-- Sample non-Play-Store device, not booted. -/
def sampleDevice : AndroidDevice :=
  ⟨"Pixel_5_API_33", "Pixel 5", "phone", "google_apis", .str "13", false, -1⟩

/-- Sample Play Store device, not booted. -/
def samplePlayDevice : AndroidDevice :=
  ⟨"Pixel_5_API_33_PS", "Pixel 5", "phone", "google_apis_playstore", .str "13", true, -1⟩

/-- Sample booted device (port 5554). -/
def sampleBootedDevice : AndroidDevice :=
  ⟨"Pixel_5_API_33", "Pixel 5", "phone", "google_apis", .str "13", false, 5554⟩

/-- Helper: a rebuilt string is empty exactly when its character list is. -/
theorem strOfList_eq_empty_iff (cs : List Char) : strOfList cs = "" ↔ cs = [] := by
  constructor
  · intro h
    have h2 : (strOfList cs).data = ("" : String).data := by rw [h]
    simpa [strOfList] using h2
  · intro h
    subst h
    rfl

/-- Claim C1: when both operands of `Version.compare` resolve to numeric
versions, the result is the sign of the difference of the weighted sums
`major*100 + minor*10 + patch`: -1 when the first is smaller, 0 when equal,
1 when larger; consequently the textually distinct `"1.0.10"` and `"1.1.0"`
compare as equal. -/
theorem claim_c1_numeric_compare_weighted (a b : VersionOrString) (va vb : Version)
    (ha : resolveOperand a = some va) (hb : resolveOperand b = some vb) :
    Version.compare a b =
      Except.ok
        (if va.major * 100 + va.minor * 10 + va.patch <
            vb.major * 100 + vb.minor * 10 + vb.patch then -1
         else if va.major * 100 + va.minor * 10 + va.patch =
            vb.major * 100 + vb.minor * 10 + vb.patch then 0
         else 1) ∧
    Version.compare (.str "1.0.10") (.str "1.1.0") = Except.ok 0 := by
  refine ⟨?_, rfl⟩
  unfold Version.compare
  rw [ha, hb]
  rcases Nat.lt_trichotomy (va.major * 100 + va.minor * 10 + va.patch)
      (vb.major * 100 + vb.minor * 10 + vb.patch) with h | h | h
  · have hne : va.major * 100 + va.minor * 10 + va.patch ≠
        vb.major * 100 + vb.minor * 10 + vb.patch := Nat.ne_of_lt h
    simp [hne, h]
  · simp [h]
  · have hne : va.major * 100 + va.minor * 10 + va.patch ≠
        vb.major * 100 + vb.minor * 10 + vb.patch := Nat.ne_of_gt h
    have hnlt : ¬ va.major * 100 + va.minor * 10 + va.patch <
        vb.major * 100 + vb.minor * 10 + vb.patch := Nat.not_lt_of_gt h
    simp [hne, hnlt]

/-- Witness for C1 at the concrete operands `"1.2.3"` and `"2.0.0"`. -/
theorem claim_c1_witness :
    Version.compare (.str "1.2.3") (.str "2.0.0") =
      Except.ok
        (if 1 * 100 + 2 * 10 + 3 < 2 * 100 + 0 * 10 + 0 then -1
         else if 1 * 100 + 2 * 10 + 3 = 2 * 100 + 0 * 10 + 0 then 0
         else 1) :=
  (claim_c1_numeric_compare_weighted (.str "1.2.3") (.str "2.0.0")
    ⟨1, 2, 3⟩ ⟨2, 0, 0⟩ rfl rfl).1

/-- Claim C2: when both operands of `Version.compare` fail to parse as numeric
versions, the result is 0 when the strings are equal case-insensitively, and
the codename-comparison error otherwise — never a silent ordering. -/
theorem claim_c2_codename_equality_only (s1 s2 : String)
    (h1 : Version.fromStr s1 = none) (h2 : Version.fromStr s2 = none) :
    Version.compare (.str s1) (.str s2) =
      (if ciEqual s1 s2 then Except.ok 0
       else Except.error VersionCompareError.codenameComparing) := by
  unfold Version.compare
  simp only [resolveOperand, h1, h2, VersionOrString.asStr]

/-- Witness for C2 at the codenames `"Tiramisu"` / `"TIRAMISU"`. -/
theorem claim_c2_witness :
    Version.compare (.str "Tiramisu") (.str "TIRAMISU") =
      (if ciEqual "Tiramisu" "TIRAMISU" then Except.ok 0
       else Except.error VersionCompareError.codenameComparing) :=
  claim_c2_codename_equality_only "Tiramisu" "TIRAMISU" rfl rfl

/-- Claim C3: when exactly one operand of `Version.compare` parses as numeric,
the codename operand ranks strictly newer regardless of the numeric
magnitude: 1 when the codename is first, -1 when it is second. -/
theorem claim_c3_codename_always_newer (s : String) (b : VersionOrString) (vb : Version)
    (h1 : Version.fromStr s = none) (h2 : resolveOperand b = some vb) :
    Version.compare (.str s) b = Except.ok 1 ∧
    Version.compare b (.str s) = Except.ok (-1) := by
  have e1 : resolveOperand (VersionOrString.str s) = none := h1
  unfold Version.compare
  rw [e1, h2]
  exact ⟨rfl, rfl⟩

/-- Witness for C3 at the claim's own example: `"99.0.0"` is older than the
codename `"Tiramisu"`. -/
theorem claim_c3_witness :
    Version.compare (.str "Tiramisu") (.str "99.0.0") = Except.ok 1 ∧
    Version.compare (.str "99.0.0") (.str "Tiramisu") = Except.ok (-1) :=
  claim_c3_codename_always_newer "Tiramisu" (.str "99.0.0") ⟨99, 0, 0⟩ rfl rfl

/-- Claim C4 (code bug): the claim — and `Version.from`'s own documentation
("returns null if the string does not follow the format") and regex comment —
require leading-zero strings to be rejected, but the code accepts `"01"` as
`Version(0,0,1)` and `"00"` as `Version(0,0,0)`: in ECMAScript the
`\k<Separator>` backreference matches the empty string when the `Separator`
group did not participate, so a Major `"0"` may be followed directly by a
Patch numeral.  The remaining parts of the claim behave as stated: `"7"`
parses to `Version(7,0,0)` printing `"7.0.0"`, and the mixed-separator
`"3.1-4"` is rejected. -/
theorem claim_c4_leading_zero_code_bug :
    Version.fromStr "01" = some ⟨0, 0, 1⟩ ∧
    Version.fromStr "00" = some ⟨0, 0, 0⟩ ∧
    Version.fromStr "7" = some ⟨7, 0, 0⟩ ∧
    Version.toString ⟨7, 0, 0⟩ = "7.0.0" ∧
    Version.fromStr "3.1-4" = none ∧
    Version.fromStr "7..8" = none ∧
    Version.fromStr "001.002" = none :=
  ⟨rfl, rfl, rfl, rfl, rfl, rfl, rfl⟩

/-- Claim C5: `CaseInsensitiveStringMap.fromString` keys are retrievable under
any casing (lookups agree whenever the keys agree case-insensitively), and on
`"Foo: bar\nBAZ=qux\nmalformed-line"` it produces exactly the two entries
`foo ↦ bar` and `baz ↦ qux` — the first `:`/`=` splits each line, surrounding
whitespace is trimmed, and the separator-free line is skipped. -/
theorem claim_c5_fromString_case_insensitive :
    (∀ (input k1 k2 : String), lowerStr k1 = lowerStr k2 →
      (CaseInsensitiveStringMap.fromString input).get k1 =
        (CaseInsensitiveStringMap.fromString input).get k2) ∧
    (CaseInsensitiveStringMap.fromString "Foo: bar\nBAZ=qux\nmalformed-line").entries =
      [("foo", "bar"), ("baz", "qux")] ∧
    (CaseInsensitiveStringMap.fromString "Foo: bar\nBAZ=qux\nmalformed-line").get "foo" =
      some "bar" ∧
    (CaseInsensitiveStringMap.fromString "Foo: bar\nBAZ=qux\nmalformed-line").get "FOO" =
      some "bar" ∧
    (CaseInsensitiveStringMap.fromString "Foo: bar\nBAZ=qux\nmalformed-line").get "BaZ" =
      some "qux" ∧
    (CaseInsensitiveStringMap.fromString "Foo: bar\nBAZ=qux\nmalformed-line").get
      "malformed-line" = none := by
  refine ⟨?_, rfl, rfl, rfl, rfl, rfl⟩
  intro input k1 k2 h
  unfold CaseInsensitiveStringMap.get
  rw [h]

/-- Witness for C5: the two casings `"fOo"` and `"FOO"` retrieve the same
entry of the parsed example text. -/
theorem claim_c5_witness :
    (CaseInsensitiveStringMap.fromString "Foo: bar\nBAZ=qux\nmalformed-line").get "fOo" =
      (CaseInsensitiveStringMap.fromString "Foo: bar\nBAZ=qux\nmalformed-line").get "FOO" :=
  claim_c5_fromString_case_insensitive.1 "Foo: bar\nBAZ=qux\nmalformed-line" "fOo" "FOO" rfl

/-- Claim C6: `isCertInstalled` never raises (it is `Bool`-valued), and it
returns `true` exactly when `adb root` succeeds, the trust-directory listing
succeeds, and the listing contains the file `{subject-hash}.0`; in every
other case — either probe step failing — it returns `false`, swallowing the
error. -/
theorem claim_c6_isCertInstalled_best_effort (crypto : CryptoOracle) (env : DeviceEnv)
    (d : AndroidDevice) (cert : SSLCertificateData) :
    AndroidDevice.isCertInstalled crypto env d cert = true ↔
      (∃ r, env.adb "root" = Except.ok r) ∧
      ∃ listing, env.adb lsCacertsCmd = Except.ok listing ∧
        containsSub (certFileName crypto cert).data listing.data = true := by
  unfold AndroidDevice.isCertInstalled
  cases hroot : env.adb "root" with
  | error e => simp [hroot]
  | ok r =>
    cases hls : env.adb lsCacertsCmd with
    | error e => simp [hls]
    | ok listing => simp [hls]

/-- Claim C7: `installCert` first attempts the host write of the PEM content —
the cached PEM when present, else the DER converted — to the temp file
`tmpdir/{hash}.0`; it succeeds exactly when that write, the root-writable
remount, the push into the trust directory under the same name, and the
chmod 644 all succeed (performing them in that order), and the first failing
step's error — the host write included: a failed write performs nothing
further — is propagated as the outcome. -/
theorem claim_c7_installCert_steps (crypto : CryptoOracle) (env : DeviceEnv)
    (d : AndroidDevice) (cert : SSLCertificateData) :
    (AndroidDevice.installCert crypto env d cert).1.head? =
      some (InstallStep.writeHostFile (env.tmpdir ++ "/" ++ certFileName crypto cert)
        (pemContentOf crypto cert)) ∧
    (∀ p, cert.pemCertificate = some p → pemContentOf crypto cert = p) ∧
    (cert.pemCertificate = none →
      pemContentOf crypto cert = crypto.derToPem cert.derCertificate) ∧
    (∀ e, env.writeFileSync (env.tmpdir ++ "/" ++ certFileName crypto cert)
        (pemContentOf crypto cert) = Except.error e →
      AndroidDevice.installCert crypto env d cert =
        ([InstallStep.writeHostFile (env.tmpdir ++ "/" ++ certFileName crypto cert)
          (pemContentOf crypto cert)], Except.error e)) ∧
    ((AndroidDevice.installCert crypto env d cert).2 = Except.ok () ↔
      env.writeFileSync (env.tmpdir ++ "/" ++ certFileName crypto cert)
        (pemContentOf crypto cert) = Except.ok () ∧
      env.mountAsRootWritableSystem = Except.ok () ∧
      (∃ o, env.adb (pushCertCmd (env.tmpdir ++ "/" ++ certFileName crypto cert)
        (certFileName crypto cert)) = Except.ok o) ∧
      (∃ o, env.adb (chmodCertCmd (certFileName crypto cert)) = Except.ok o)) ∧
    ((AndroidDevice.installCert crypto env d cert).2 = Except.ok () →
      (AndroidDevice.installCert crypto env d cert).1 =
        [InstallStep.writeHostFile (env.tmpdir ++ "/" ++ certFileName crypto cert)
          (pemContentOf crypto cert),
         InstallStep.mountWritable d.id,
         InstallStep.adbCommand (pushCertCmd (env.tmpdir ++ "/" ++ certFileName crypto cert)
           (certFileName crypto cert)),
         InstallStep.adbCommand (chmodCertCmd (certFileName crypto cert))]) ∧
    (∀ e, (AndroidDevice.installCert crypto env d cert).2 = Except.error e ↔
      (env.writeFileSync (env.tmpdir ++ "/" ++ certFileName crypto cert)
        (pemContentOf crypto cert) = Except.error e ∨
       (env.writeFileSync (env.tmpdir ++ "/" ++ certFileName crypto cert)
          (pemContentOf crypto cert) = Except.ok () ∧
        env.mountAsRootWritableSystem = Except.error e) ∨
       (env.writeFileSync (env.tmpdir ++ "/" ++ certFileName crypto cert)
          (pemContentOf crypto cert) = Except.ok () ∧
        env.mountAsRootWritableSystem = Except.ok () ∧
        env.adb (pushCertCmd (env.tmpdir ++ "/" ++ certFileName crypto cert)
          (certFileName crypto cert)) = Except.error e) ∨
       (env.writeFileSync (env.tmpdir ++ "/" ++ certFileName crypto cert)
          (pemContentOf crypto cert) = Except.ok () ∧
        env.mountAsRootWritableSystem = Except.ok () ∧
        (∃ o, env.adb (pushCertCmd (env.tmpdir ++ "/" ++ certFileName crypto cert)
          (certFileName crypto cert)) = Except.ok o) ∧
        env.adb (chmodCertCmd (certFileName crypto cert)) = Except.error e))) := by
  have hpemS : ∀ p, cert.pemCertificate = some p → pemContentOf crypto cert = p := by
    intro p hp
    simp [pemContentOf, hp]
  have hpemN : cert.pemCertificate = none →
      pemContentOf crypto cert = crypto.derToPem cert.derCertificate := by
    intro hn
    simp [pemContentOf, hn]
  cases hw : env.writeFileSync (env.tmpdir ++ "/" ++ certFileName crypto cert)
      (pemContentOf crypto cert) with
  | error ew =>
    refine ⟨by simp [AndroidDevice.installCert, hw], hpemS, hpemN, ?_, ?_, ?_, ?_⟩
    · intro e he
      injection he with h
      subst h
      simp [AndroidDevice.installCert, hw]
    · simp [AndroidDevice.installCert, hw]
    · simp [AndroidDevice.installCert, hw]
    · intro e
      simp [AndroidDevice.installCert, hw]
  | ok uw =>
    cases uw
    cases hm : env.mountAsRootWritableSystem with
    | error e0 =>
      refine ⟨by simp [AndroidDevice.installCert, hw, hm], hpemS, hpemN, ?_, ?_, ?_, ?_⟩
      · intro e he
        exact absurd he (by simp)
      · simp [AndroidDevice.installCert, hw, hm]
      · simp [AndroidDevice.installCert, hw, hm]
      · intro e
        simp [AndroidDevice.installCert, hw, hm]
    | ok u =>
      cases u
      cases hp : env.adb (pushCertCmd (env.tmpdir ++ "/" ++ certFileName crypto cert)
          (certFileName crypto cert)) with
      | error e1 =>
        refine ⟨by simp [AndroidDevice.installCert, hw, hm, hp], hpemS, hpemN, ?_, ?_, ?_, ?_⟩
        · intro e he
          exact absurd he (by simp)
        · simp [AndroidDevice.installCert, hw, hm, hp]
        · simp [AndroidDevice.installCert, hw, hm, hp]
        · intro e
          simp [AndroidDevice.installCert, hw, hm, hp]
      | ok o1 =>
        cases hc : env.adb (chmodCertCmd (certFileName crypto cert)) with
        | error e2 =>
          refine ⟨by simp [AndroidDevice.installCert, hw, hm, hp, hc], hpemS, hpemN,
            ?_, ?_, ?_, ?_⟩
          · intro e he
            exact absurd he (by simp)
          · simp [AndroidDevice.installCert, hw, hm, hp, hc]
          · simp [AndroidDevice.installCert, hw, hm, hp, hc]
          · intro e
            simp [AndroidDevice.installCert, hw, hm, hp, hc]
        | ok o2 =>
          refine ⟨by simp [AndroidDevice.installCert, hw, hm, hp, hc], hpemS, hpemN,
            ?_, ?_, ?_, ?_⟩
          · intro e he
            exact absurd he (by simp)
          · simp [AndroidDevice.installCert, hw, hm, hp, hc]
          · simp [AndroidDevice.installCert, hw, hm, hp, hc]
          · intro e
            simp [AndroidDevice.installCert, hw, hm, hp, hc]

/-- Witness for C7: with an all-succeeding environment, a DER-only certificate
is converted to PEM and the installation succeeds; a certificate with a
cached PEM uses the cache; with an environment whose host write throws, the
write error propagates and nothing further runs. -/
theorem claim_c7_witness :
    pemContentOf sampleCrypto sampleCert = sampleCrypto.derToPem sampleCert.derCertificate ∧
    pemContentOf sampleCrypto sampleCertPem = "CACHED-PEM" ∧
    (AndroidDevice.installCert sampleCrypto sampleEnvAllOk sampleDevice sampleCert).2 =
      Except.ok () ∧
    AndroidDevice.installCert sampleCrypto sampleEnvWriteFails sampleDevice sampleCert =
      ([InstallStep.writeHostFile ("/tmp" ++ "/" ++ certFileName sampleCrypto sampleCert)
        (pemContentOf sampleCrypto sampleCert)], Except.error "ENOSPC") :=
  ⟨(claim_c7_installCert_steps sampleCrypto sampleEnvAllOk sampleDevice sampleCert).2.2.1 rfl,
   (claim_c7_installCert_steps sampleCrypto sampleEnvAllOk sampleDevice sampleCertPem).2.1
     "CACHED-PEM" rfl,
   (claim_c7_installCert_steps sampleCrypto sampleEnvAllOk sampleDevice
     sampleCert).2.2.2.2.1.mpr ⟨rfl, rfl, ⟨"", rfl⟩, ⟨"", rfl⟩⟩,
   (claim_c7_installCert_steps sampleCrypto sampleEnvWriteFails sampleDevice
     sampleCert).2.2.2.1 "ENOSPC" rfl⟩

/-- Claim C8: booting a Play Store device with `systemWritable = true` fails
with the policy error before `startEmulator` runs (no actions are performed)
and the not-booted device keeps its `-1` port, while `systemWritable = false`
on the same device does call `startEmulator`. -/
theorem claim_c8_playstore_writable_boot (env : DeviceEnv) (d : AndroidDevice) (wf : Bool)
    (hps : d.isPlayStore = true) (hport : d.port = -1) :
    AndroidDevice.boot env d wf true = (d, [], Except.error playStoreBootError) ∧
    (AndroidDevice.boot env d wf true).1.port = -1 ∧
    (AndroidDevice.boot env d wf false).2.1 = [EmuAction.startEmulator d.id false wf] := by
  have h1 : AndroidDevice.boot env d wf true = (d, [], Except.error playStoreBootError) := by
    simp [AndroidDevice.boot, hps]
  refine ⟨h1, by rw [h1]; exact hport, ?_⟩
  cases hs : env.startEmulator d.id false wf with
  | ok p => simp [AndroidDevice.boot, hs]
  | error e => simp [AndroidDevice.boot, hs]

/-- Witness for C8 at a concrete Play Store device. -/
theorem claim_c8_witness :
    AndroidDevice.boot sampleEnvAllOk samplePlayDevice true true =
      (samplePlayDevice, [], Except.error playStoreBootError) ∧
    (AndroidDevice.boot sampleEnvAllOk samplePlayDevice true true).1.port = -1 ∧
    (AndroidDevice.boot sampleEnvAllOk samplePlayDevice true false).2.1 =
      [EmuAction.startEmulator samplePlayDevice.id false true] :=
  claim_c8_playstore_writable_boot sampleEnvAllOk samplePlayDevice true rfl rfl

/-- Claim C9: on a device at the `-1` sentinel, `reboot` performs exactly
`boot` (same device state, same actions, same outcome); on a device with a
live port it instead issues the single `rebootEmulator` command. -/
theorem claim_c9_reboot_cold_is_boot (env : DeviceEnv) (d : AndroidDevice) (wf : Bool) :
    (d.port = -1 → AndroidDevice.reboot env d wf = AndroidDevice.boot env d wf false) ∧
    (d.port ≠ -1 →
      (AndroidDevice.reboot env d wf).2.1 = [EmuAction.rebootEmulator d.port wf]) := by
  constructor
  · intro h
    simp [AndroidDevice.reboot, h]
  · intro h
    cases hr : env.rebootEmulator d.port wf with
    | ok u => simp [AndroidDevice.reboot, h, hr]
    | error e => simp [AndroidDevice.reboot, h, hr]

/-- Witness for C9: at a cold device reboot equals boot; at a booted device it
issues the reboot command. -/
theorem claim_c9_witness :
    AndroidDevice.reboot sampleEnvAllOk sampleDevice true =
      AndroidDevice.boot sampleEnvAllOk sampleDevice true false ∧
    (AndroidDevice.reboot sampleEnvAllOk sampleBootedDevice true).2.1 =
      [EmuAction.rebootEmulator sampleBootedDevice.port true] :=
  ⟨(claim_c9_reboot_cold_is_boot sampleEnvAllOk sampleDevice true).1 rfl,
   (claim_c9_reboot_cold_is_boot sampleEnvAllOk sampleBootedDevice true).2 (by decide)⟩

/-- Claim C10: `hasApp` never raises (it is `Bool`-valued, the adb error being
swallowed into the empty result) and returns `true` exactly when the
package-list query for the target truncated at the first `/` succeeds with
non-whitespace output; `"com.x/.Activity"` queries package id `"com.x"`. -/
theorem claim_c10_hasApp_truncates_and_swallows (env : DeviceEnv) (d : AndroidDevice)
    (target : String) :
    (AndroidDevice.hasApp env d target = true ↔
      ∃ out, env.adb (hasAppCmd (pkgIdOf target)) = Except.ok out ∧
        trimList out.data ≠ []) ∧
    pkgIdOf "com.x/.Activity" = "com.x" := by
  refine ⟨?_, rfl⟩
  unfold AndroidDevice.hasApp
  cases h : env.adb (hasAppCmd (pkgIdOf target)) with
  | error e =>
    simp only [h]
    constructor
    · intro hfalse
      exact absurd hfalse (by decide)
    · rintro ⟨out, hout, _⟩
      exact absurd hout (by simp)
  | ok r =>
    simp [h, bne_iff_ne, strOfList_eq_empty_iff]
